import Mathlib

/-!
Shallow embedding of the rustify-ts core (src/result/result.ts,
src/core/option/option.ts, src/internals/assertions.ts).

JavaScript values that may be the null/undefined sentinels are modelled by
`JSVal`; code that throws is modelled with `Except JsError`; the two closed
sum types are `Rustify.Option` (variants Some/None) and `Rustify.Result`
(variants Success/Failure).  Each definition below embeds the source
function of the same name.
-/

/-- A JavaScript value slot: the null sentinel, the undefined sentinel, or a
proper value of type α. -/
inductive JSVal (α : Type) where
  | jsNull
  | jsUndefined
  | val (a : α)
deriving DecidableEq, Repr

/-- Embeds internals/assertions.ts isNullOrUndefined:
value === null || value === undefined. -/
def JSVal.isNullOrUndefined : JSVal α → Bool
  | .jsNull => true
  | .jsUndefined => true
  | .val _ => false

/-- A thrown JavaScript Error carrying its message (new Error(msg)). -/
inductive JsError where
  | err (msg : String)
deriving DecidableEq, Repr

namespace Rustify

/-- The Option sum type of option.ts: Some(data) | None. -/
inductive Option (α : Type) where
  | Some (data : α)
  | None
deriving DecidableEq, Repr

/-- The Result sum type of result.ts: Success(data) | Failure(error). -/
inductive Result (α ε : Type) where
  | Success (data : α)
  | Failure (error : ε)
deriving DecidableEq, Repr

/-- Embeds the Some class constructor (option.ts): `new Some(data)` throws
"Some() requires a value" when data is null/undefined, otherwise yields the
Some instance holding data. -/
def Option.mkSome (data : JSVal α) : Except JsError (Option (JSVal α)) :=
  if data.isNullOrUndefined then Except.error (JsError.err "Some() requires a value")
  else Except.ok (Option.Some data)

/-- Embeds Some.flatMap / None.flatMap (option.ts): Some(v).flatMap(fn) =
fn(v); None.flatMap(fn) = new None(). -/
def Option.flatMap : Option α → (α → Option β) → Option β
  | .Some data, fn => fn data
  | .None, _ => .None

/-- Embeds Some.expect / None.expect (option.ts): Some returns the data,
None throws an Error carrying exactly the caller's message. -/
def Option.expect : Option α → String → Except JsError α
  | .Some data, _ => Except.ok data
  | .None, message => Except.error (JsError.err message)

/-- Embeds the static Option.toResult (option.ts): Some → new
Success(value), None → new Failure(error). -/
def Option.toResult : Option α → ε → Result α ε
  | .Some data, _ => .Success data
  | .None, error => .Failure error

/-- Embeds Success.expect / Failure.expect (result.ts): Success returns the
data, Failure throws an Error whose message interpolates the error behind
the caller's message. -/
def Result.expect [ToString ε] : Result α ε → String → Except JsError α
  | .Success data, _ => Except.ok data
  | .Failure error, message =>
      Except.error (JsError.err (message ++ ": " ++ toString error))

/-- Embeds the static Result.toOption (result.ts): Success → new
Some(result.unwrap()) (whose constructor throws on a null/undefined data),
Failure → new None(). -/
def Result.toOption : Result (JSVal α) ε → Except JsError (Option (JSVal α))
  | .Success data => Option.mkSome data
  | .Failure _ => Except.ok Option.None

/-- Embeds the static Result.fromNullable (result.ts).  The optional second
argument is itself a JavaScript slot; the call with one argument passes
undefined there.  value != null holds exactly when value is neither null
nor undefined; the error used is the given one unless it is strictly
undefined, in which case the literal "missing_value". -/
def Result.fromNullable (value : JSVal α) (error : JSVal ε) :
    Result (JSVal α) (Sum (JSVal ε) String) :=
  if value.isNullOrUndefined = false then .Success value
  else
    match error with
    | .jsUndefined => .Failure (Sum.inr "missing_value")
    | e => .Failure (Sum.inl e)

/-- Embeds the loop body of the static Result.all (result.ts): walk the
array, short-circuit on the first Failure, otherwise push each unwrapped
value onto the accumulator values. -/
def Result.allGo : List (Result α ε) → List α → Result (List α) ε
  | [], values => .Success values
  | .Failure e :: _, _ => .Failure e
  | .Success v :: rs, values => Result.allGo rs (values ++ [v])

/-- Embeds the static Result.all (result.ts) on a genuine array of genuine
Results (the runtime array/shape guards of the source cannot fire on this
typed input). -/
def Result.all (results : List (Result α ε)) : Result (List α) ε :=
  Result.allGo results []

/-- Embeds the static Result.combine (result.ts), the alias that delegates
to Result.all. -/
def Result.combine (results : List (Result α ε)) : Result (List α) ε :=
  Result.all results

/-- Embeds the loop body of the static Result.combineWithAllErrors
(result.ts): walk the whole array, pushing every error and every unwrapped
value; fail with the error array exactly when it is non-empty. -/
def Result.combineWithAllErrorsGo :
    List (Result α ε) → List α → List ε → Result (List α) (List ε)
  | [], values, errors =>
      if errors.length > 0 then .Failure errors else .Success values
  | .Failure e :: rs, values, errors =>
      Result.combineWithAllErrorsGo rs values (errors ++ [e])
  | .Success v :: rs, values, errors =>
      Result.combineWithAllErrorsGo rs (values ++ [v]) errors

/-- Embeds the static Result.combineWithAllErrors (result.ts) on a genuine
array of genuine Results. -/
def Result.combineWithAllErrors (results : List (Result α ε)) :
    Result (List α) (List ε) :=
  Result.combineWithAllErrorsGo results [] []

/-- The options object taken by Result.retry; JavaScript numbers are
modelled as rationals. The defaulted fields carry the source's defaults. -/
structure RetryOptions where
  maxAttempts : Rat := 3
  baseDelay : Rat := 100
  maxDelay : Rat := 5000
  exponentialBase : Rat := 2
deriving DecidableEq, Repr

/-- The lastError slot of retry's failure payload: either an Error thrown
by retry's own validation, or the value the wrapped function rejected
with. -/
inductive RetryError (ε : Type) where
  | validationError (msg : String)
  | rejection (e : ε)
deriving DecidableEq, Repr

/-- The failure payload of Result.retry: { attempts, lastError }. -/
structure RetryPayload (ε : Type) where
  attempts : Nat
  lastError : ε
deriving DecidableEq, Repr

/-- Embeds the while loop of Result.retry (result.ts).  The wrapped
function is modelled by the outcome fn i of its i-th invocation (1-based).
The loop is unrolled by one step so that lastError needs no uninitialised
slot: each iteration increments attempts, invokes fn, returns Success on
resolution, and on rejection either recurses (when attempts is still below
maxAttempts; the inter-attempt delay does not affect the value) or exits
with the payload { attempts, lastError = that rejection }.  Called with
attempts < maxAttempts, as the source's loop guard ensures. -/
def Result.retryLoop (fn : Nat → Except ε α) (maxAttempts : Nat)
    (attempts : Nat) : Result α (RetryPayload ε) :=
  match fn (attempts + 1) with
  | Except.ok v => .Success v
  | Except.error e =>
      if h : attempts + 1 < maxAttempts then
        Result.retryLoop fn maxAttempts (attempts + 1)
      else
        .Failure ⟨attempts + 1, e⟩
termination_by maxAttempts - attempts
decreasing_by omega

/-- Embeds the static Result.retry (result.ts): validate maxAttempts as a
positive integer and the delays/base as non-negative resp. strictly
positive, failing with attempts 0 and the corresponding Error before any
invocation; otherwise run the attempt loop from attempts = 0 (after the
integrality check, maxAttempts is used as the natural number it denotes). -/
def Result.retry (fn : Nat → Except ε α) (options : RetryOptions) :
    Result α (RetryPayload (RetryError ε)) :=
  if options.maxAttempts < 1 ∨ options.maxAttempts.den ≠ 1 then
    .Failure ⟨0, RetryError.validationError "maxAttempts must be a positive integer"⟩
  else if options.baseDelay < 0 ∨ options.maxDelay < 0 ∨ options.exponentialBase ≤ 0 then
    .Failure ⟨0, RetryError.validationError
      "Delays and exponential base must be non-negative numbers"⟩
  else
    Result.retryLoop (fun i => (fn i).mapError RetryError.rejection)
      options.maxAttempts.num.toNat 0

/-- The conjunction of the checks Result.retry performs on its options,
phrased positively: maxAttempts is a positive integer, the delays are
non-negative and the exponential base is strictly positive. -/
def validRetryOptions (options : RetryOptions) : Prop :=
  1 ≤ options.maxAttempts ∧ options.maxAttempts.den = 1 ∧
    0 ≤ options.baseDelay ∧ 0 ≤ options.maxDelay ∧ 0 < options.exponentialBase

instance (options : RetryOptions) : Decidable (validRetryOptions options) := by
  unfold validRetryOptions; infer_instance

end Rustify

/-- Statement-level helper (not part of the source): the errors of the
Failure elements of a list, in input order. -/
def specErrors {α ε : Type} : List (Rustify.Result α ε) → List ε
  | [] => []
  | .Failure e :: rs => e :: specErrors rs
  | .Success _ :: rs => specErrors rs

/-- Statement-level helper (not part of the source): the data of the
Success elements of a list, in input order. -/
def specValues {α ε : Type} : List (Rustify.Result α ε) → List α
  | [] => []
  | .Failure _ :: rs => specValues rs
  | .Success v :: rs => v :: specValues rs

lemma allGo_spec {α ε : Type} (rs : List (Rustify.Result α ε)) :
    ∀ (acc : List α),
      Rustify.Result.allGo rs acc =
        match specErrors rs with
        | [] => Rustify.Result.Success (acc ++ specValues rs)
        | e :: _ => Rustify.Result.Failure e := by
  induction rs with
  | nil => intro acc; simp [Rustify.Result.allGo, specErrors, specValues]
  | cons r rs ih =>
    intro acc
    cases r with
    | Failure e => simp [Rustify.Result.allGo, specErrors]
    | Success v =>
      rw [Rustify.Result.allGo, ih (acc ++ [v])]
      cases h : specErrors rs <;> simp [specErrors, specValues, h]

lemma combineWithAllErrorsGo_spec {α ε : Type} (rs : List (Rustify.Result α ε)) :
    ∀ (vacc : List α) (eacc : List ε),
      Rustify.Result.combineWithAllErrorsGo rs vacc eacc =
        match eacc ++ specErrors rs with
        | [] => Rustify.Result.Success (vacc ++ specValues rs)
        | e :: es => Rustify.Result.Failure (e :: es) := by
  induction rs with
  | nil =>
    intro vacc eacc
    cases eacc <;>
      simp [Rustify.Result.combineWithAllErrorsGo, specErrors, specValues]
  | cons r rs ih =>
    intro vacc eacc
    cases r with
    | Failure e =>
      rw [Rustify.Result.combineWithAllErrorsGo, ih vacc (eacc ++ [e])]
      simp [specErrors, specValues]
    | Success v =>
      rw [Rustify.Result.combineWithAllErrorsGo, ih (vacc ++ [v]) eacc]
      simp [specErrors, specValues]

/-- Claim C1: Result.all (alias combine) is fail-fast: if every element is
a Success the outcome is Success of the unwrapped values in input order,
otherwise it is Failure of the first Failure element's error, with no
success values included. -/
theorem result_all_fail_fast {α ε : Type} (results : List (Rustify.Result α ε)) :
    (Rustify.Result.all results =
      match specErrors results with
      | [] => Rustify.Result.Success (specValues results)
      | e :: _ => Rustify.Result.Failure e) ∧
    Rustify.Result.combine results = Rustify.Result.all results := by
  refine ⟨?_, rfl⟩
  rw [Rustify.Result.all, allGo_spec results []]
  cases h : specErrors results <;> simp

/-- Claim C5: Result.combineWithAllErrors never short-circuits: it fails
with the list of all Failure errors in input order when there is at least
one, and succeeds with all unwrapped values exactly when zero errors were
collected. -/
theorem result_combineWithAllErrors_collects {α ε : Type}
    (results : List (Rustify.Result α ε)) :
    Rustify.Result.combineWithAllErrors results =
      match specErrors results with
      | [] => Rustify.Result.Success (specValues results)
      | e :: es => Rustify.Result.Failure (e :: es) := by
  rw [Rustify.Result.combineWithAllErrors, combineWithAllErrorsGo_spec results [] []]
  cases h : specErrors results <;> simp [h]

/-- Claim C7: flatMap on Option is associative: o.flatMap(f).flatMap(g)
equals o.flatMap(x => f(x).flatMap(g)) in variant and contained value. -/
theorem option_flatMap_assoc {α β γ : Type} (o : Rustify.Option α)
    (f : α → Rustify.Option β) (g : β → Rustify.Option γ) :
    (o.flatMap f).flatMap g = o.flatMap (fun x => (f x).flatMap g) := by
  cases o <;> rfl

/-- Claim C2: the conversion layer round-trips: for every non-null value
(a proper value a), Result.toOption (Option.toResult (Some a, e)) is
Some a again, and Option.toResult (None, e) is Failure carrying exactly
e. -/
theorem option_result_round_trip {α ε : Type} (a : α) (e : ε) :
    Rustify.Result.toOption
        (Rustify.Option.toResult (Rustify.Option.Some (JSVal.val a)) e)
      = Except.ok (Rustify.Option.Some (JSVal.val a)) ∧
    Rustify.Option.toResult (Rustify.Option.None : Rustify.Option (JSVal α)) e
      = Rustify.Result.Failure e :=
  ⟨rfl, rfl⟩

/-- Claim C6: Result.fromNullable with one argument (error slot undefined)
maps null and undefined to Failure "missing_value" and every proper value
v — whatever it is, including falsy ones — to Success v. -/
theorem result_fromNullable_default {α ε : Type} (a : α) :
    Rustify.Result.fromNullable (JSVal.val a) (JSVal.jsUndefined : JSVal ε)
      = Rustify.Result.Success (JSVal.val a) ∧
    Rustify.Result.fromNullable (JSVal.jsNull : JSVal α) (JSVal.jsUndefined : JSVal ε)
      = Rustify.Result.Failure (Sum.inr "missing_value") ∧
    Rustify.Result.fromNullable (JSVal.jsUndefined : JSVal α) (JSVal.jsUndefined : JSVal ε)
      = Rustify.Result.Failure (Sum.inr "missing_value") :=
  ⟨rfl, rfl, rfl⟩

/-- Claim C8: expect on the empty variant fails with exactly the supplied
message: None.expect(message) throws the message itself, Failure(e)
.expect(message) throws "message: e" with the error's string form, and
Some/Success return the contained value without throwing. -/
theorem expect_message_exact {α ε : Type} [ToString ε] (message : String)
    (a : α) (e : ε) :
    (Rustify.Option.Some a).expect message = Except.ok a ∧
    (Rustify.Option.None : Rustify.Option α).expect message
      = Except.error (JsError.err message) ∧
    (Rustify.Result.Success a : Rustify.Result α ε).expect message = Except.ok a ∧
    (Rustify.Result.Failure e : Rustify.Result α ε).expect message
      = Except.error (JsError.err (message ++ ": " ++ toString e)) :=
  ⟨rfl, rfl, rfl, rfl⟩

/-- Claim C9: the Some constructor fails fast with a construction error on
the null/undefined sentinels, so a Some it does return never contains a
sentinel. -/
theorem some_constructor_rejects_null {α : Type} (d : JSVal α) :
    (d.isNullOrUndefined = true →
      Rustify.Option.mkSome d
        = Except.error (JsError.err "Some() requires a value")) ∧
    (∀ o a, Rustify.Option.mkSome d = Except.ok o →
      o = Rustify.Option.Some a → a.isNullOrUndefined = false) := by
  constructor
  · intro h
    simp [Rustify.Option.mkSome, h]
  · intro o a hok hsome
    cases d <;> simp [Rustify.Option.mkSome, JSVal.isNullOrUndefined] at hok ⊢
    subst hok
    cases hsome
    rfl

theorem some_constructor_rejects_null_witness :
    ((JSVal.jsNull : JSVal Nat).isNullOrUndefined = true ∧
      Rustify.Option.mkSome (JSVal.jsNull : JSVal Nat)
        = Except.error (JsError.err "Some() requires a value")) ∧
    (JSVal.val (5 : Nat)).isNullOrUndefined = false :=
  ⟨⟨rfl, (some_constructor_rejects_null (JSVal.jsNull : JSVal Nat)).1 rfl⟩,
    (some_constructor_rejects_null (JSVal.val (5 : Nat))).2
      (Rustify.Option.Some (JSVal.val 5)) (JSVal.val 5) rfl rfl⟩

/-- Claim C10: Result.toOption throws the Some construction error on a
Success holding null or undefined, returns Some(data) on a Success holding
a proper value, and returns None on a Failure. -/
theorem toOption_success_null_throws {α ε : Type} (a : α) (e : ε) :
    Rustify.Result.toOption
        (Rustify.Result.Success (JSVal.jsNull : JSVal α) : Rustify.Result (JSVal α) ε)
      = Except.error (JsError.err "Some() requires a value") ∧
    Rustify.Result.toOption
        (Rustify.Result.Success (JSVal.jsUndefined : JSVal α) : Rustify.Result (JSVal α) ε)
      = Except.error (JsError.err "Some() requires a value") ∧
    Rustify.Result.toOption
        (Rustify.Result.Success (JSVal.val a) : Rustify.Result (JSVal α) ε)
      = Except.ok (Rustify.Option.Some (JSVal.val a)) ∧
    Rustify.Result.toOption
        (Rustify.Result.Failure e : Rustify.Result (JSVal α) ε)
      = Except.ok Rustify.Option.None :=
  ⟨rfl, rfl, rfl, rfl⟩

lemma retryLoop_first_ok {α ε : Type} (fn : Nat → Except ε α) (N : Nat) :
    ∀ (d attempts k : Nat) (v : α), attempts + d + 1 = k → k ≤ N →
      (∀ i, attempts < i → i < k → ∃ e, fn i = Except.error e) →
      fn k = Except.ok v →
      Rustify.Result.retryLoop fn N attempts = Rustify.Result.Success v := by
  intro d
  induction d with
  | zero =>
    intro attempts k v hk hkN herr hok
    rw [Rustify.Result.retryLoop]
    have : k = attempts + 1 := by omega
    subst this
    rw [hok]
  | succ d ih =>
    intro attempts k v hk hkN herr hok
    obtain ⟨e, he⟩ := herr (attempts + 1) (by omega) (by omega)
    have hlt : attempts + 1 < N := by omega
    rw [Rustify.Result.retryLoop, he]
    simp only [dif_pos hlt]
    exact ih (attempts + 1) k v (by omega) hkN
      (fun i hi1 hi2 => herr i (by omega) hi2) hok

lemma retryLoop_all_error {α ε : Type} (fn : Nat → Except ε α) (N : Nat) :
    ∀ (d attempts : Nat), attempts + d + 1 = N →
      (∀ i, attempts < i → i ≤ N → ∃ e, fn i = Except.error e) →
      ∃ e, fn N = Except.error e ∧
        Rustify.Result.retryLoop fn N attempts
          = Rustify.Result.Failure ⟨N, e⟩ := by
  intro d
  induction d with
  | zero =>
    intro attempts hN herr
    obtain ⟨e, he⟩ := herr (attempts + 1) (by omega) (by omega)
    have hN1 : attempts + 1 = N := by omega
    subst hN1
    have hstop : ¬ attempts + 1 < attempts + 1 := by omega
    refine ⟨e, he, ?_⟩
    rw [Rustify.Result.retryLoop, he]
    simp only [dif_neg hstop]
  | succ d ih =>
    intro attempts hN herr
    obtain ⟨e, he⟩ := herr (attempts + 1) (by omega) (by omega)
    have hlt : attempts + 1 < N := by omega
    obtain ⟨efin, hefin, hloop⟩ :=
      ih (attempts + 1) (by omega) (fun i hi1 hi2 => herr i (by omega) hi2)
    refine ⟨efin, hefin, ?_⟩
    rw [Rustify.Result.retryLoop, he]
    simp only [dif_pos hlt]
    exact hloop

lemma retryLoop_congr {α ε : Type} (fn fn2 : Nat → Except ε α) (N : Nat) :
    ∀ (d attempts : Nat), attempts + d + 1 = N →
      (∀ i, attempts < i → i ≤ N → fn2 i = fn i) →
      Rustify.Result.retryLoop fn2 N attempts
        = Rustify.Result.retryLoop fn N attempts := by
  intro d
  induction d with
  | zero =>
    intro attempts hN hagree
    have hag1 : fn2 (attempts + 1) = fn (attempts + 1) :=
      hagree (attempts + 1) (by omega) (by omega)
    have hstop : ¬ attempts + 1 < N := by omega
    conv_lhs => rw [Rustify.Result.retryLoop]
    conv_rhs => rw [Rustify.Result.retryLoop]
    rw [hag1]
    cases h : fn (attempts + 1) with
    | ok v => rfl
    | error e => simp only [dif_neg hstop]
  | succ d ih =>
    intro attempts hN hagree
    have hag1 : fn2 (attempts + 1) = fn (attempts + 1) :=
      hagree (attempts + 1) (by omega) (by omega)
    have hlt : attempts + 1 < N := by omega
    conv_lhs => rw [Rustify.Result.retryLoop]
    conv_rhs => rw [Rustify.Result.retryLoop]
    rw [hag1]
    cases h : fn (attempts + 1) with
    | ok v => rfl
    | error e =>
      simp only [dif_pos hlt]
      exact ih (attempts + 1) (by omega) (fun i hi1 hi2 => hagree i (by omega) hi2)

lemma mapError_error_of {α ε φ : Type} (f : ε → φ) (x : Except ε α) (e : ε)
    (h : x = Except.error e) : x.mapError f = Except.error (f e) := by
  rw [h]; rfl

lemma mapError_ok_of {α ε φ : Type} (f : ε → φ) (x : Except ε α) (v : α)
    (h : x = Except.ok v) : x.mapError f = Except.ok v := by
  rw [h]; rfl

lemma retry_valid_unfold {α ε : Type} (fn : Nat → Except ε α)
    (options : Rustify.RetryOptions) (h : Rustify.validRetryOptions options) :
    Rustify.Result.retry fn options =
      Rustify.Result.retryLoop
        (fun i => (fn i).mapError Rustify.RetryError.rejection)
        options.maxAttempts.num.toNat 0 := by
  obtain ⟨h1, h2, h3, h4, h5⟩ := h
  have hc1 : ¬ (options.maxAttempts < 1 ∨ options.maxAttempts.den ≠ 1) := by
    push_neg; exact ⟨h1, h2⟩
  have hc2 : ¬ (options.baseDelay < 0 ∨ options.maxDelay < 0 ∨
      options.exponentialBase ≤ 0) := by
    push_neg; exact ⟨h3, h4, h5⟩
  rw [Rustify.Result.retry, if_neg hc1, if_neg hc2]

lemma valid_maxAttempts_pos (options : Rustify.RetryOptions)
    (h : Rustify.validRetryOptions options) :
    1 ≤ options.maxAttempts.num.toNat := by
  have hq : (0:ℚ) < options.maxAttempts := by
    have := h.1; linarith
  have hnum : 0 < options.maxAttempts.num := Rat.num_pos.mpr hq
  omega

/-- Claim C3: with valid options, Result.retry consults only the first
maxAttempts invocation outcomes; it is Success(v) when the first resolving
invocation (all earlier ones rejecting) yields v, and when all maxAttempts
invocations reject it is Failure recording attempts = maxAttempts and
lastError = the final rejection.  maxAttempts appears as the natural
number options.maxAttempts.num.toNat it denotes. -/
theorem result_retry_attempts {α ε : Type} (fn : Nat → Except ε α)
    (options : Rustify.RetryOptions)
    (hvalid : Rustify.validRetryOptions options) :
    (∀ k v, 1 ≤ k → k ≤ options.maxAttempts.num.toNat →
        (∀ i, 1 ≤ i → i < k → ∃ e, fn i = Except.error e) →
        fn k = Except.ok v →
        Rustify.Result.retry fn options = Rustify.Result.Success v) ∧
    ((∀ i, 1 ≤ i → i ≤ options.maxAttempts.num.toNat →
          ∃ e, fn i = Except.error e) →
        ∃ e, fn options.maxAttempts.num.toNat = Except.error e ∧
          Rustify.Result.retry fn options
            = Rustify.Result.Failure
                ⟨options.maxAttempts.num.toNat,
                  Rustify.RetryError.rejection e⟩) ∧
    (∀ fn2 : Nat → Except ε α,
        (∀ i, 1 ≤ i → i ≤ options.maxAttempts.num.toNat → fn2 i = fn i) →
        Rustify.Result.retry fn2 options = Rustify.Result.retry fn options) := by
  have hN := valid_maxAttempts_pos options hvalid
  refine ⟨?_, ?_, ?_⟩
  · intro k v hk1 hkN herr hok
    rw [retry_valid_unfold fn options hvalid]
    exact retryLoop_first_ok _ _ (k - 1) 0 k v (by omega) hkN
      (fun i hi1 hi2 =>
        let ⟨e, he⟩ := herr i (by omega) hi2
        ⟨Rustify.RetryError.rejection e, mapError_error_of _ _ _ he⟩)
      (mapError_ok_of _ _ _ hok)
  · intro herr
    obtain ⟨e, he⟩ :=
      herr options.maxAttempts.num.toNat (by omega) (by omega)
    obtain ⟨efin, hefin, hloop⟩ :=
      retryLoop_all_error
        (fun i => (fn i).mapError Rustify.RetryError.rejection)
        options.maxAttempts.num.toNat
        (options.maxAttempts.num.toNat - 1) 0 (by omega)
        (fun i hi1 hi2 =>
          let ⟨e2, he2⟩ := herr i (by omega) hi2
          ⟨Rustify.RetryError.rejection e2, mapError_error_of _ _ _ he2⟩)
    have hsame : (Except.error efin : Except (Rustify.RetryError ε) α)
        = Except.error (Rustify.RetryError.rejection e) := by
      rw [← hefin]
      exact mapError_error_of _ _ _ he
    have hef : efin = Rustify.RetryError.rejection e := by
      injection hsame
    refine ⟨e, he, ?_⟩
    rw [retry_valid_unfold fn options hvalid, hloop, hef]
  · intro fn2 hagree
    rw [retry_valid_unfold fn options hvalid,
      retry_valid_unfold fn2 options hvalid]
    exact retryLoop_congr _ _ _
      (options.maxAttempts.num.toNat - 1) 0 (by omega)
      (fun i hi1 hi2 => by
        show (fn2 i).mapError _ = (fn i).mapError _
        rw [hagree i (by omega) hi2])

theorem result_retry_attempts_witness :
    Rustify.validRetryOptions { maxAttempts := 3, baseDelay := 10 } ∧
    Rustify.Result.retry
        (fun i => if i ≤ 2 then Except.error "boom" else Except.ok "done")
        { maxAttempts := 3, baseDelay := 10 }
      = Rustify.Result.Success "done" :=
  ⟨by decide,
    (result_retry_attempts
        (fun i => if i ≤ 2 then Except.error "boom" else Except.ok "done")
        { maxAttempts := 3, baseDelay := 10 } (by decide)).1
      3 "done" (by decide) (by decide)
      (by
        intro i h1 h2
        exact ⟨"boom", by
          have : i ≤ 2 := by omega
          simp [this]⟩)
      rfl⟩

/-- Claim C4: on options failing validation (maxAttempts not a positive
integer, a negative delay, or a non-positive exponential base), Result.retry
returns Failure with attempts = 0 and a validation Error as lastError, and
its outcome does not depend on the wrapped function, which is never
invoked. -/
theorem result_retry_validation {α ε : Type} (options : Rustify.RetryOptions)
    (hbad : ¬ Rustify.validRetryOptions options) :
    ∀ fn fn2 : Nat → Except ε α,
      (∃ msg, Rustify.Result.retry fn options
          = Rustify.Result.Failure
              ⟨0, Rustify.RetryError.validationError msg⟩) ∧
      Rustify.Result.retry fn options = Rustify.Result.retry fn2 options := by
  intro fn fn2
  by_cases h1 : options.maxAttempts < 1 ∨ options.maxAttempts.den ≠ 1
  · constructor
    · exact ⟨"maxAttempts must be a positive integer",
        by rw [Rustify.Result.retry, if_pos h1]⟩
    · rw [Rustify.Result.retry, if_pos h1, Rustify.Result.retry, if_pos h1]
  · have h2 : options.baseDelay < 0 ∨ options.maxDelay < 0 ∨
        options.exponentialBase ≤ 0 := by
      by_contra h2
      push_neg at h1 h2
      exact hbad ⟨h1.1, h1.2, h2.1, h2.2.1, h2.2.2⟩
    constructor
    · exact ⟨"Delays and exponential base must be non-negative numbers",
        by rw [Rustify.Result.retry, if_neg h1, if_pos h2]⟩
    · rw [Rustify.Result.retry, if_neg h1, if_pos h2,
        Rustify.Result.retry, if_neg h1, if_pos h2]

theorem result_retry_validation_witness :
    ¬ Rustify.validRetryOptions { maxAttempts := 0 } ∧
    ∃ msg,
      Rustify.Result.retry
          (fun _ => (Except.ok 0 : Except String Nat)) { maxAttempts := 0 }
        = Rustify.Result.Failure
            ⟨0, Rustify.RetryError.validationError msg⟩ :=
  ⟨by decide,
    (result_retry_validation { maxAttempts := 0 } (by decide)
        (fun _ => (Except.ok 0 : Except String Nat))
        (fun _ => (Except.ok 0 : Except String Nat))).1⟩
